import Mathlib

/-!
A shallow embedding of `lisp.py`, a small Lisp interpreter
(tokenizer, atom classifier, reader/parser, standard environment with
builtin procedures, evaluator, printer), together with theorems checking
the repository's specification against this embedding.

Python-level conventions used throughout the embedding:
* Python's dynamically typed values are modelled by the inductive type
  `Value`; the source aliases `Symbol = str`, `Number = (int, float)`,
  `List = list`, `Environment = dict` are modelled by the corresponding
  constructors and by `Env` as an association list with unique keys.
* Python `bool` is a subclass of `int`, so `Value.bool` counts as a
  number wherever the source checks `isinstance(x, Number)`.
* Python floats are modelled by rationals (`Rat`); no claim depends on
  IEEE rounding behaviour.
* Exceptions are modelled by the error type `PyErr`; the Python kind of
  each raised exception is recorded by the constructor used.
-/

namespace PyLisp

/-- The builtin procedures installed by `standard_environment`.  Each
constructor stands for one host-level function object; `'+'` and
`'append'` are both bound to the single object `operator.add`, which is
modelled by both names mapping to the one constructor `add`.  The
`mathFn` constructor stands for a function imported from `vars(math)`. -/
inductive Builtin where
  | add | sub | mul | div
  | gt | lt | ge | le | eqOp
  | absFn | applyFn | beginFn | car | cdr | cons
  | isOp | expt | equalFn | lenFn | listFn | isListFn
  | mapFn | maxFn | minFn | notFn | isNullFn | isNumberFn
  | printFn | isProcedureFn | roundFn | isSymbolFn
  | mathFn (name : String)
deriving DecidableEq, Repr

/-- The kinds of Python exception the interpreter can raise.
`unexpectedEOF` and `unexpectedClose` are the two `SyntaxError`s raised
explicitly by `read_from_tokens`; `indexError`, `keyError`, `typeError`,
`valueError` and `zeroDivisionError` model the corresponding uncaught
Python exception classes.  `unmodelled` marks builtin behaviour that no
claim depends on and that this embedding deliberately leaves abstract;
`outOfFuel` is an artifact of the fuel parameter of the reader and is
unreachable when the fuel exceeds the token count. -/
inductive PyErr where
  | unexpectedEOF
  | unexpectedClose
  | indexError
  | keyError (name : String)
  | typeError
  | valueError
  | zeroDivisionError
  | unmodelled (what : String)
  | outOfFuel
deriving DecidableEq, Repr

/-- The runtime values of the interpreter.  `int`, `float`, `bool`,
`sym` (Python `str`), `list` and `pyNone` (Python `None`, the result of
`define`) model the dynamic types flowing through `eval`; `builtin`
models the host function objects stored in the environment. -/
inductive Value where
  | int (n : Int)
  | float (q : Rat)
  | bool (b : Bool)
  | sym (s : String)
  | list (l : List Value)
  | builtin (b : Builtin)
  | pyNone

/-! ## Tokenizer -/

/-- `s.replace(old, new)` for a one-character pattern `old`. -/
def replaceChar (s : List Char) (old : Char) (new : List Char) : List Char :=
  s.flatMap (fun ch => if ch = old then new else [ch])

/-- `s.split()` with no separator argument: split on runs of whitespace,
producing no empty fragments.  `acc` holds the characters of the current
fragment in reverse order. -/
def pySplitAux : List Char → List Char → List (List Char)
  | [], acc => if acc.isEmpty then [] else [acc.reverse]
  | c :: cs, acc =>
    if c.isWhitespace then
      if acc.isEmpty then pySplitAux cs [] else acc.reverse :: pySplitAux cs []
    else
      pySplitAux cs (c :: acc)

/-- `tokenize(chars)`: `chars.replace('(',' ( ').replace(')', ' ) ').split()`. -/
def tokenize (chars : String) : List String :=
  (pySplitAux (replaceChar (replaceChar chars.data '(' (" ( ").data) ')' (" ) ").data) []).map
    String.mk

/-- Modelled from the spec's tokenizer contract, for comparison with
`tokenize`: scan the text once, treating `(` and `)` as isolated
one-character tokens and splitting all other content on whitespace.
`acc` holds the characters of the current token in reverse order. -/
def specTokenizeAux : List Char → List Char → List (List Char)
  | [], acc => if acc.isEmpty then [] else [acc.reverse]
  | c :: cs, acc =>
    if c = '(' ∨ c = ')' then
      (if acc.isEmpty then [] else [acc.reverse]) ++ [c] :: specTokenizeAux cs []
    else if c.isWhitespace then
      (if acc.isEmpty then [] else [acc.reverse]) ++ specTokenizeAux cs []
    else
      specTokenizeAux cs (c :: acc)

/-- The spec-level tokenizer on strings. -/
def specTokenize (chars : String) : List String :=
  (specTokenizeAux chars.data []).map String.mk

/-! ## Atom classifier -/

/-- Value of a nonempty digit string. -/
def digitsToNat (ds : List Char) : Nat :=
  ds.foldl (fun n c => n * 10 + (c.toNat - 48)) 0

/-- Model of Python `int(token)` on tokenizer output: an optional sign
followed by a nonempty run of decimal digits.  (Python additionally
strips surrounding whitespace and allows digit-group underscores;
tokenizer output contains no whitespace, and no claim involves
underscores, so these are left out of the model.) -/
def pyIntOfString? (t : String) : Option Int :=
  match t.data with
  | [] => none
  | c :: cs =>
    if c = '+' then
      if cs ≠ [] ∧ cs.all (·.isDigit) then some (digitsToNat cs : Int) else none
    else if c = '-' then
      if cs ≠ [] ∧ cs.all (·.isDigit) then some (-(digitsToNat cs : Int)) else none
    else if (c :: cs).all (·.isDigit) then some (digitsToNat (c :: cs) : Int)
    else none

/-- Split a character list at the first character satisfying `p`,
returning the prefix and, when a split character was found, the suffix. -/
def splitAtChar (p : Char → Bool) : List Char → List Char × Option (List Char)
  | [] => ([], none)
  | c :: cs =>
    if p c then ([], some cs)
    else
      let r := splitAtChar p cs
      (c :: r.1, r.2)

/-- The rational value of `ip . fp`, both digit strings. -/
def mantissaVal (ip fp : List Char) : Rat :=
  (digitsToNat ip : Rat) + (digitsToNat fp : Rat) / ((10 : Rat) ^ fp.length)

/-- Model of Python `float(token)` on tokenizer output: an optional
sign, then a mantissa (`digits`, `digits.`, `digits.digits` or
`.digits`), then an optional exponent `e`/`E` with optional sign and
nonempty digits.  The value is returned as a rational.  (The special
texts `inf`/`infinity`/`nan` and digit-group underscores are accepted by
Python but left out: no claim involves them.) -/
def pyFloatOfString? (t : String) : Option Rat :=
  let core : List Char → Option Rat := fun body =>
    let mantExp := splitAtChar (fun c => c = 'e' ∨ c = 'E') body
    let mant := splitAtChar (fun c => c = '.') mantExp.1
    let ip := mant.1
    let fp := (mant.2).getD []
    if ip.all (·.isDigit) ∧ fp.all (·.isDigit) ∧ (ip ≠ [] ∨ fp ≠ []) then
      match mantExp.2 with
      | none => some (mantissaVal ip fp)
      | some ex =>
        let exBody := match ex with
          | '+' :: ds => ds
          | '-' :: ds => ds
          | ds => ds
        let negExp : Bool := match ex with
          | '-' :: _ => true
          | _ => false
        if exBody ≠ [] ∧ exBody.all (·.isDigit) then
          some (mantissaVal ip fp *
            (if negExp then ((10 : Rat) ^ digitsToNat exBody)⁻¹
             else (10 : Rat) ^ digitsToNat exBody))
        else none
    else none
  match t.data with
  | [] => none
  | '+' :: body => core body
  | '-' :: body => (core body).map (fun q => -q)
  | body => core body

/-- `atom(token)`: try `int(token)`, then `float(token)`, else keep the
text as a `Symbol`. -/
def atom (token : String) : Value :=
  match pyIntOfString? token with
  | some n => .int n
  | none =>
    match pyFloatOfString? token with
    | some q => .float q
    | none => .sym token

/-! ## Reader / parser

`read_from_tokens` destructively pops tokens from a shared list; the
embedding passes the remaining token list explicitly.  The recursion of
the Python function is bounded by the token count, which the embedding
makes explicit through a fuel parameter: every recursive call consumes
fuel, and `parse` supplies `length + 1` fuel, which is always enough
(each unit of fuel spent corresponds to at least one consumed token), so
the `outOfFuel` branches are unreachable from `parse`. -/

/-- The `while tokens[0] != ')'` loop of `read_from_tokens`, reading
list elements with `readOne` until a closing parenthesis is consumed.
Checking `tokens[0]` on an exhausted token list raises `IndexError`. -/
def readListGo (readOne : List String → Except PyErr (Value × List String)) :
    Nat → List String → Except PyErr (List Value × List String)
  | 0, _ => .error .outOfFuel
  | _ + 1, [] => .error .indexError
  | fuel + 1, token :: rest =>
    if token = ")" then .ok ([], rest)
    else
      match readOne (token :: rest) with
      | .error e => .error e
      | .ok (v, rest₁) =>
        match readListGo readOne fuel rest₁ with
        | .error e => .error e
        | .ok (l, rest₂) => .ok (v :: l, rest₂)

/-- `read_from_tokens(tokens)`: read one expression.  An exhausted token
list raises `SyntaxError("unexpected EOF")`; a leading `(` enters the
element loop; a bare `)` raises `SyntaxError("unexpected )")`; any other
token is classified by `atom`. -/
def read_from_tokens : Nat → List String → Except PyErr (Value × List String)
  | 0, _ => .error .outOfFuel
  | fuel + 1, tokens =>
    match tokens with
    | [] => .error .unexpectedEOF
    | token :: rest =>
      if token = "(" then
        match readListGo (read_from_tokens fuel) fuel rest with
        | .error e => .error e
        | .ok (l, rest') => .ok (.list l, rest')
      else if token = ")" then .error .unexpectedClose
      else .ok (atom token, rest)

/-- `parse(program)`: tokenize, then read one expression; the mutated
token list (any trailing tokens) is discarded. -/
def parse (program : String) : Except PyErr Value :=
  match read_from_tokens ((tokenize program).length + 1) (tokenize program) with
  | .error e => .error e
  | .ok (v, _rest) => .ok v

/-! ## Environment

The Python `Environment` is a `dict` mutated in place.  It is modelled
as an association list with unique keys; `envSet` overwrites an existing
binding in place and appends a new one, and `envGet` returns the unique
binding.  Only string keys occur in any claim; `define` on a non-string
name (possible in Python via arbitrary hashable keys) is outside the
model and marked `unmodelled`. -/

abbrev Env := List (String × Value)

/-- `env[name]` lookup. -/
def envGet : Env → String → Option Value
  | [], _ => none
  | (k, v) :: rest, name => if k = name then some v else envGet rest name

/-- `env[name] = v`: overwrite the binding if present, else append it. -/
def envSet : Env → String → Value → Env
  | [], name, v => [(name, v)]
  | (k, w) :: rest, name, v =>
    if k = name then (k, v) :: rest else (k, w) :: envSet rest name v

/-! ## Value helpers -/

/-- `isinstance(x, Symbol)` with `Symbol = str`. -/
def isSymbolValue : Value → Bool
  | .sym _ => true
  | _ => false

/-- `isinstance(x, Number)` with `Number = (int, float)`.  Python `bool`
is a subclass of `int`, so booleans count as numbers. -/
def isNumberValue : Value → Bool
  | .int _ => true
  | .float _ => true
  | .bool _ => true
  | _ => false

/-- `callable(x)`. -/
def isCallable : Value → Bool
  | .builtin _ => true
  | _ => false

/-- Python truthiness, as used by `if eval(test, env)`: zero numbers,
empty strings, empty lists and `None` are falsy; everything else is
truthy. -/
def truthy : Value → Bool
  | .int n => n != 0
  | .float q => q != 0
  | .bool b => b
  | .sym s => !s.isEmpty
  | .list l => !l.isEmpty
  | .builtin _ => true
  | .pyNone => false

/-- The numeric view of a value: Python arithmetic treats `bool` as the
integers 0/1 and promotes to float; the rational model carries both
kinds. -/
def numVal? : Value → Option Rat
  | .int n => some (n : Rat)
  | .float q => some q
  | .bool b => some (if b then 1 else 0)
  | _ => none

/-- The integer-kind view of a value (`int` or its subclass `bool`);
used to decide whether an arithmetic result stays of integer kind. -/
def intVal? : Value → Option Int
  | .int n => some n
  | .bool b => some (if b then 1 else 0)
  | _ => none

mutual
/-- Python `==` (`operator.eq`): numeric values compare across kinds
(`1 == 1.0 == True`), strings and lists compare structurally, function
objects compare by identity (modelled by `Builtin` equality), values of
unrelated types compare unequal, and no comparison fails. -/
def pyEq : Value → Value → Bool
  | .int a, .int b => a == b
  | .int a, .float b => (a : Rat) == b
  | .int a, .bool b => a == (if b then 1 else 0)
  | .float a, .int b => a == (b : Rat)
  | .float a, .float b => a == b
  | .float a, .bool b => a == (if b then (1 : Rat) else 0)
  | .bool a, .int b => (if a then (1 : Int) else 0) == b
  | .bool a, .float b => (if a then (1 : Rat) else 0) == b
  | .bool a, .bool b => a == b
  | .sym a, .sym b => a == b
  | .list a, .list b => pyEqList a b
  | .builtin a, .builtin b => a == b
  | .pyNone, .pyNone => true
  | _, _ => false
/-- Elementwise Python `==` on lists. -/
def pyEqList : List Value → List Value → Bool
  | [], [] => true
  | a :: as, b :: bs => pyEq a b && pyEqList as bs
  | _, _ => false
end

/-! ## Builtin operations -/

/-- `operator.add`, the one function object bound to both `'+'` and
`'append'`: integer-kind addition stays exact, any float operand
promotes to float, lists and strings concatenate, anything else raises
`TypeError`. -/
def pyAdd (a b : Value) : Except PyErr Value :=
  match intVal? a, intVal? b with
  | some x, some y => .ok (.int (x + y))
  | _, _ =>
    match numVal? a, numVal? b with
    | some x, some y => .ok (.float (x + y))
    | _, _ =>
      match a, b with
      | .list x, .list y => .ok (.list (x ++ y))
      | .sym x, .sym y => .ok (.sym (x ++ y))
      | _, _ => .error .typeError

/-- `operator.sub`: numeric only. -/
def pySub (a b : Value) : Except PyErr Value :=
  match intVal? a, intVal? b with
  | some x, some y => .ok (.int (x - y))
  | _, _ =>
    match numVal? a, numVal? b with
    | some x, some y => .ok (.float (x - y))
    | _, _ => .error .typeError

/-- `operator.mul` on numbers.  (Python also repeats sequences, as in
`[1] * 3`; no claim exercises that, so it is outside the model.) -/
def pyMul (a b : Value) : Except PyErr Value :=
  match intVal? a, intVal? b with
  | some x, some y => .ok (.int (x * y))
  | _, _ =>
    match numVal? a, numVal? b with
    | some x, some y => .ok (.float (x * y))
    | _, _ => .error .typeError

/-- `operator.truediv`: non-truncating division, always of float kind;
division by zero raises `ZeroDivisionError`. -/
def pyDiv (a b : Value) : Except PyErr Value :=
  match numVal? a, numVal? b with
  | some x, some y =>
    if y = 0 then .error .zeroDivisionError else .ok (.float (x / y))
  | _, _ => .error .typeError

/-- The shared shape of `operator.gt`/`lt`/`ge`/`le`: compare numbers
across kinds, compare strings lexicographically, raise `TypeError` on
unrelated operand types.  (Python also orders lists elementwise; no
claim exercises that, so it is outside the model.) -/
def pyCompare (cmpR : Rat → Rat → Bool) (cmpS : String → String → Bool)
    (a b : Value) : Except PyErr Value :=
  match numVal? a, numVal? b with
  | some x, some y => .ok (.bool (cmpR x y))
  | _, _ =>
    match a, b with
    | .sym s, .sym t => .ok (.bool (cmpS s t))
    | _, _ => .error .typeError

/-- `abs`. -/
def pyAbs (a : Value) : Except PyErr Value :=
  match a with
  | .int n => .ok (.int n.natAbs)
  | .float q => .ok (.float |q|)
  | .bool b => .ok (.int (if b then 1 else 0))
  | _ => .error .typeError

/-- `lambda *x: x[-1]` (`begin`): the last argument; `x[-1]` on an empty
argument tuple raises `IndexError`. -/
def pyBegin (args : List Value) : Except PyErr Value :=
  match args.getLast? with
  | some v => .ok v
  | none => .error .indexError

/-- `lambda x: x[0]` (`car`): first element of a list (or first
character of a string); empty raises `IndexError`, non-subscriptable
raises `TypeError`. -/
def pyCar : Value → Except PyErr Value
  | .list (v :: _) => .ok v
  | .list [] => .error .indexError
  | .sym s =>
    match s.data with
    | c :: _ => .ok (.sym (String.mk [c]))
    | [] => .error .indexError
  | _ => .error .typeError

/-- `lambda x: x[1:]` (`cdr`): all but the first element; the slice of
an empty sequence is empty, not an error. -/
def pyCdr : Value → Except PyErr Value
  | .list l => .ok (.list l.tail)
  | .sym s => .ok (.sym (String.mk s.data.tail))
  | _ => .error .typeError

/-- `lambda x, y: [x] + y` (`cons`): prepend to a list; `[x] + y` for a
non-list `y` raises `TypeError`. -/
def pyCons (a b : Value) : Except PyErr Value :=
  match b with
  | .list l => .ok (.list (a :: l))
  | _ => .error .typeError

/-- `len`. -/
def pyLen : Value → Except PyErr Value
  | .list l => .ok (.int l.length)
  | .sym s => .ok (.int s.length)
  | _ => .error .typeError

/-- Apply a builtin function object to evaluated arguments.  Builtins
whose exact behaviour no claim depends on (`eq?`, whose object-identity
semantics has no counterpart on pure trees; `apply`, `map`, `max`,
`min`, `expt`, `round`, and the imported `math` functions) are left
abstract and answer `unmodelled`.  A fixed-arity builtin applied to the
wrong number of arguments raises `TypeError`. -/
def applyBuiltin : Builtin → List Value → Except PyErr Value
  | .add, [a, b] => pyAdd a b
  | .sub, [a, b] => pySub a b
  | .mul, [a, b] => pyMul a b
  | .div, [a, b] => pyDiv a b
  | .gt, [a, b] => pyCompare (fun x y => decide (x > y)) (fun s t => decide (t < s)) a b
  | .lt, [a, b] => pyCompare (fun x y => decide (x < y)) (fun s t => decide (s < t)) a b
  | .ge, [a, b] => pyCompare (fun x y => decide (x ≥ y)) (fun s t => decide (t ≤ s)) a b
  | .le, [a, b] => pyCompare (fun x y => decide (x ≤ y)) (fun s t => decide (s ≤ t)) a b
  | .eqOp, [a, b] => .ok (.bool (pyEq a b))
  | .absFn, [a] => pyAbs a
  | .beginFn, args => pyBegin args
  | .car, [v] => pyCar v
  | .cdr, [v] => pyCdr v
  | .cons, [a, b] => pyCons a b
  | .equalFn, [a, b] => .ok (.bool (pyEq a b))
  | .lenFn, [v] => pyLen v
  | .listFn, args => .ok (.list args)
  | .isListFn, [v] => .ok (.bool (match v with | .list _ => true | _ => false))
  | .notFn, [v] => .ok (.bool (!truthy v))
  | .isNullFn, [v] => .ok (.bool (pyEq v (.list [])))
  | .isNumberFn, [v] => .ok (.bool (isNumberValue v))
  | .printFn, _ => .ok .pyNone
  | .isProcedureFn, [v] => .ok (.bool (isCallable v))
  | .isSymbolFn, [v] => .ok (.bool (isSymbolValue v))
  | .isOp, [_, _] => .error (.unmodelled ("is"))
  | .applyFn, _ => .error (.unmodelled ("apply"))
  | .mapFn, _ => .error (.unmodelled ("map"))
  | .maxFn, _ => .error (.unmodelled ("max"))
  | .minFn, _ => .error (.unmodelled ("min"))
  | .expt, _ => .error (.unmodelled ("pow"))
  | .roundFn, _ => .error (.unmodelled ("round"))
  | .mathFn name, _ => .error (.unmodelled name)
  | _, _ => .error .typeError

/-- `proc(*args)`: apply a value in procedure position; a non-callable
value raises `TypeError`. -/
def callValue : Value → List Value → Except PyErr Value
  | .builtin b, args => applyBuiltin b args
  | _, _ => .error .typeError

/-! ## Standard environment -/

/-- `env.update(vars(math))`: the names imported from the `math`
module.  A representative subset is listed (no claim depends on any of
them, and none of their names collides with the operator table below);
the numeric constants are the decimal values Python prints for them,
and the functions are abstract `mathFn` objects. -/
def mathBindings : Env := [
  ("pi", .float ((3141592653589793 : Rat) / 1000000000000000)),
  ("e", .float ((2718281828459045 : Rat) / 1000000000000000)),
  ("tau", .float ((6283185307179586 : Rat) / 1000000000000000)),
  ("sqrt", .builtin (.mathFn ("sqrt"))),
  ("sin", .builtin (.mathFn ("sin"))),
  ("cos", .builtin (.mathFn ("cos"))),
  ("tan", .builtin (.mathFn ("tan"))),
  ("exp", .builtin (.mathFn ("exp"))),
  ("log", .builtin (.mathFn ("log"))),
  ("pow", .builtin (.mathFn ("pow")))]

/-- `standard_environment()`: the math bindings followed by the
operator table.  Note `'append'` is bound to `operator.add`, the very
same object as `'+'`. -/
def standard_environment : Env :=
  mathBindings ++ [
    ("+", .builtin .add),
    ("-", .builtin .sub),
    ("*", .builtin .mul),
    ("/", .builtin .div),
    (">", .builtin .gt),
    ("<", .builtin .lt),
    (">=", .builtin .ge),
    ("<=", .builtin .le),
    ("=", .builtin .eqOp),
    ("abs", .builtin .absFn),
    ("append", .builtin .add),
    ("apply", .builtin .applyFn),
    ("begin", .builtin .beginFn),
    ("car", .builtin .car),
    ("cdr", .builtin .cdr),
    ("cons", .builtin .cons),
    ("eq?", .builtin .isOp),
    ("expt", .builtin .expt),
    ("equal?", .builtin .equalFn),
    ("length", .builtin .lenFn),
    ("list", .builtin .listFn),
    ("list?", .builtin .isListFn),
    ("map", .builtin .mapFn),
    ("max", .builtin .maxFn),
    ("min", .builtin .minFn),
    ("not", .builtin .notFn),
    ("null?", .builtin .isNullFn),
    ("number?", .builtin .isNumberFn),
    ("print", .builtin .printFn),
    ("procedure?", .builtin .isProcedureFn),
    ("round", .builtin .roundFn),
    ("symbol?", .builtin .isSymbolFn)]

/-- `global_env = standard_environment()`. -/
def global_env : Env := standard_environment

/-! ## Evaluator

`eval(x, env)` mutates `env` in place (via `define`, possibly nested
inside subexpressions) and either returns a value or raises; the
embedding threads the environment explicitly and returns it alongside
the result, also when raising, since mutations performed before the
point of failure persist.  The source computes the selected `if` branch
as `exp = conseq if eval(test, env) else alt` and then evaluates `exp`;
the embedding inlines this into one `eval` call per branch of the
selection, which is the identical computation. -/

mutual
/-- `eval(x, env)`, following the source's dispatch order: variable
lookup (`KeyError` when unbound), self-evaluating numbers (including
booleans), then list dispatch on `x[0]` (`IndexError` on the empty
list): the `if` form, the `define` form (non-string `define` names are
outside the model), and otherwise procedure application with strict
left-to-right argument evaluation.  Tuple unpacking of a malformed
special form raises `ValueError`; evaluating a non-subscriptable
non-atom (a function object or `None`) raises `TypeError` at `x[0]`. -/
def eval : Value → Env → Env × Except PyErr Value
  | .sym s, env =>
    (env, match envGet env s with
          | some v => .ok v
          | none => .error (.keyError s))
  | .int n, env => (env, .ok (.int n))
  | .float q, env => (env, .ok (.float q))
  | .bool b, env => (env, .ok (.bool b))
  | .list [], env => (env, .error .indexError)
  | .list [.sym ("if"), test, conseq, alt], env =>
    (match eval test env with
     | (env₁, .error e) => (env₁, .error e)
     | (env₁, .ok tv) =>
       if truthy tv then eval conseq env₁ else eval alt env₁)
  | .list (.sym ("if") :: _), env => (env, .error .valueError)
  | .list [.sym ("define"), name, valueExpr], env =>
    (match eval valueExpr env with
     | (env₁, .error e) => (env₁, .error e)
     | (env₁, .ok v) =>
       match name with
       | .sym s => (envSet env₁ s v, .ok .pyNone)
       | _ => (env₁, .error (.unmodelled ("define-key"))))
  | .list (.sym ("define") :: _), env => (env, .error .valueError)
  | .list (hd :: args), env =>
    (match eval hd env with
     | (env₁, .error e) => (env₁, .error e)
     | (env₁, .ok procv) =>
       match evalArgs args env₁ with
       | (env₂, .error e) => (env₂, .error e)
       | (env₂, .ok argvs) => (env₂, callValue procv argvs))
  | .builtin _, env => (env, .error .typeError)
  | .pyNone, env => (env, .error .typeError)
/-- `[eval(arg, env) for arg in x[1:]]`: evaluate arguments strictly
left to right, stopping at the first raised error. -/
def evalArgs : List Value → Env → Env × Except PyErr (List Value)
  | [], env => (env, .ok [])
  | a :: as, env =>
    (match eval a env with
     | (env₁, .error e) => (env₁, .error e)
     | (env₁, .ok v) =>
       match evalArgs as env₁ with
       | (env₂, .error e) => (env₂, .error e)
       | (env₂, .ok vs) => (env₂, .ok (v :: vs)))
end

/-! ## Printer -/

/-- `' '.join(parts)`. -/
def joinSpace : List String → String
  | [] => ""
  | [s] => s
  | s :: rest => s ++ " " ++ joinSpace rest

mutual
/-- `schemestr(exp)`: a list renders as `(` + the space-joined rendered
elements + `)`; anything else renders via `str(...)`.  Integers render
in decimal with a leading `-` when negative, booleans as `True`/`False`,
strings verbatim, `None` as `None`.  Python renders floats in decimal
notation; the rational model has no such canonical form, and no claim
depends on float rendering, so floats render as rationals, and function
objects render as a fixed placeholder text. -/
def schemestr : Value → String
  | .list l => "(" ++ joinSpace (schemestrList l) ++ ")"
  | .int n => toString n
  | .float q => toString q
  | .bool b => if b then ("True") else ("False")
  | .sym s => s
  | .builtin _ => "<built-in function>"
  | .pyNone => "None"
/-- `map(schemestr, exp)`. -/
def schemestrList : List Value → List String
  | [] => []
  | v :: vs => schemestr v :: schemestrList vs
end

/-- `run(program)`: `eval(parse(program))` against the global
environment.  (The source's global environment persists across calls;
each `run` here starts from the freshly built `standard_environment`,
which is its state at module load.) -/
def run (program : String) : Env × Except PyErr Value :=
  match parse program with
  | .error e => (global_env, .error e)
  | .ok x => eval x global_env

/-! ## Predicates used by the verification -/

/-- A character that the tokenizer passes through unchanged: not a
parenthesis and not whitespace. -/
def plainChar (c : Char) : Bool :=
  !(c == '(' || c == ')' || c.isWhitespace)

/-- A "simple atom" in the sense of the spec's round-trip property: an
integer, or a symbol whose text is nonempty, free of parentheses and
whitespace, and not classifiable as a number — exactly the values whose
rendering survives tokenizing and re-classification.  (Floats are
excluded: their Python rendering is not part of the model.) -/
def goodAtomB : Value → Bool
  | .int _ => true
  | .sym s =>
    !s.data.isEmpty && s.data.all plainChar
      && (pyIntOfString? s).isNone && (pyFloatOfString? s).isNone
  | _ => false

/-! ## Helper lemmas: tokenizer -/

theorem replaceChar_cons (c : Char) (cs : List Char) (old : Char) (new : List Char) :
    replaceChar (c :: cs) old new = (if c = old then new else [c]) ++ replaceChar cs old new := by
  simp [replaceChar]

theorem replaceChar_append (a b : List Char) (old : Char) (new : List Char) :
    replaceChar (a ++ b) old new = replaceChar a old new ++ replaceChar b old new := by
  simp [replaceChar]

/-- The `replace`-then-`split` tokenizer agrees, on every character list
and accumulator, with the single-pass tokenizer described by the spec. -/
theorem tokenizeAux_eq (s : List Char) : ∀ acc : List Char,
    pySplitAux (replaceChar (replaceChar s '(' (" ( ").data) ')' (" ) ").data) acc
      = specTokenizeAux s acc := by
  induction s with
  | nil => intro acc; simp [replaceChar, pySplitAux, specTokenizeAux]
  | cons c cs ih =>
    intro acc
    rw [replaceChar_cons, replaceChar_append]
    by_cases hop : c = '('
    · subst hop
      have h1 : replaceChar (" ( ").data ')' (" ) ").data = (" ( ").data := rfl
      rw [if_pos rfl, h1]
      have hws : (' ').isWhitespace = true := rfl
      have hwsp : ('(').isWhitespace = false := rfl
      cases hacc : acc.isEmpty <;>
        simp [pySplitAux, specTokenizeAux, hws, hwsp, hacc, ih]
    · by_cases hcp : c = ')'
      · subst hcp
        have h0 : (if (')' : Char) = '(' then (" ( ").data else [')']) = [')'] := rfl
        have h1 : replaceChar [')'] ')' (" ) ").data = (" ) ").data := rfl
        rw [h0, h1]
        have hws : (' ').isWhitespace = true := rfl
        have hwsp : (')').isWhitespace = false := rfl
        cases hacc : acc.isEmpty <;>
          simp [pySplitAux, specTokenizeAux, hws, hwsp, hacc, ih]
      · have h0 : (if c = '(' then (" ( ").data else [c]) = [c] := if_neg hop
        have h1 : replaceChar [c] ')' (" ) ").data = [c] := by
          simp [replaceChar, hcp]
        rw [h0, h1]
        by_cases hw : c.isWhitespace
        · cases hacc : acc.isEmpty <;>
            simp [pySplitAux, specTokenizeAux, hop, hcp, hw, hacc, ih]
        · simp [pySplitAux, specTokenizeAux, hop, hcp, hw, ih]

/-- `tokenize` computes exactly the token sequence described by the
spec's tokenizer contract. -/
theorem tokenize_eq_specTokenize (s : String) : tokenize s = specTokenize s :=
  congrArg (List.map String.mk) (tokenizeAux_eq s.data [])

/-! ## Helper lemmas: reader -/

/-- Reading a token that is neither parenthesis consumes exactly that
token and classifies it. -/
theorem read_plain (f : Nat) (t : String) (rest : List String)
    (hf : 0 < f) (h1 : t ≠ "(") (h2 : t ≠ ")") :
    read_from_tokens f (t :: rest) = .ok (atom t, rest) := by
  match f, hf with
  | f + 1, _ => simp [read_from_tokens, h1, h2]

/-- The element loop never raises the EOF `SyntaxError` (exhaustion
inside it is an `IndexError`), provided its element reader never does. -/
theorem readListGo_ne_eof (readOne : List String → Except PyErr (Value × List String))
    (hA : ∀ t rest, readOne (t :: rest) ≠ .error .unexpectedEOF) :
    ∀ (fuel : Nat) (toks : List String),
      readListGo readOne fuel toks ≠ .error .unexpectedEOF := by
  intro fuel
  induction fuel with
  | zero => intro toks; simp [readListGo]
  | succ fuel ih =>
    intro toks
    match toks with
    | [] => simp [readListGo]
    | token :: rest =>
      by_cases hc : token = ")"
      · simp [readListGo, hc]
      · cases h1 : readOne (token :: rest) with
        | error e =>
          have he : e ≠ .unexpectedEOF := by
            intro h; exact hA token rest (h ▸ h1)
          simp [readListGo, hc, h1, he]
        | ok p =>
          cases h2 : readListGo readOne fuel p.2 with
          | error e =>
            have he : e ≠ .unexpectedEOF := by
              intro h; exact ih p.2 (h ▸ h2)
            simp [readListGo, hc, h1, h2, he]
          | ok q => simp [readListGo, hc, h1, h2]

/-- `read_from_tokens` raises the EOF `SyntaxError` only when handed an
exhausted token list. -/
theorem read_from_tokens_ne_eof :
    ∀ (f : Nat) (t : String) (rest : List String),
      read_from_tokens f (t :: rest) ≠ .error .unexpectedEOF := by
  intro f
  induction f with
  | zero => intro t rest; simp [read_from_tokens]
  | succ f ih =>
    intro t rest
    by_cases h1 : t = "("
    · cases h2 : readListGo (read_from_tokens f) f rest with
      | error e =>
        have he : e ≠ .unexpectedEOF := by
          intro h
          exact readListGo_ne_eof (read_from_tokens f) ih f rest (h ▸ h2)
        simp [read_from_tokens, h1, h2, he]
      | ok p => simp [read_from_tokens, h1, h2]
    · by_cases h2 : t = ")" <;> simp [read_from_tokens, h1, h2]

/-- `parse` fails with the EOF `SyntaxError` exactly on inputs whose
token sequence is empty. -/
theorem parse_eof_iff (s : String) :
    parse s = .error .unexpectedEOF ↔ tokenize s = [] := by
  constructor
  · intro h
    cases htk : tokenize s with
    | nil => rfl
    | cons t rest =>
      exfalso
      simp only [parse, htk] at h
      cases hr : read_from_tokens ((t :: rest).length + 1) (t :: rest) with
      | error e =>
        rw [hr] at h
        exact read_from_tokens_ne_eof _ t rest (by rw [hr]; exact congrArg Except.error (by injection h))
      | ok p => rw [hr] at h; exact Except.noConfusion h
  · intro h
    simp [parse, h, read_from_tokens]

/-- Reading the element loop over plain tokens (no parentheses)
classifies each token and stops at the closing parenthesis. -/
theorem readListGo_plain (f₀ : Nat) (hf₀ : 0 < f₀) (toks : List String) :
    ∀ (fuel : Nat) (rest : List String),
      toks.length < fuel →
      (∀ t ∈ toks, t ≠ "(" ∧ t ≠ ")") →
      readListGo (read_from_tokens f₀) fuel (toks ++ (")") :: rest)
        = .ok (toks.map atom, rest) := by
  induction toks with
  | nil =>
    intro fuel rest hlt _
    match fuel, hlt with
    | fuel + 1, _ => simp [readListGo]
  | cons t ts ih =>
    intro fuel rest hlt hplain
    match fuel, hlt with
    | fuel + 1, hlt =>
      have ht := hplain t (by simp)
      have hts : ts.length < fuel := by simp at hlt; omega
      have h2 := ih fuel rest hts (fun x hx => hplain x (List.mem_cons_of_mem t hx))
      simp only [List.cons_append, readListGo, if_neg ht.2]
      rw [read_plain f₀ t _ hf₀ ht.1 ht.2]
      show (match readListGo (read_from_tokens f₀) fuel (ts ++ (")") :: rest) with
          | Except.error e => Except.error e
          | Except.ok (l, rest₂) => Except.ok (atom t :: l, rest₂))
        = Except.ok (List.map atom (t :: ts), rest)
      rw [h2]
      simp

/-- Parsing an input that tokenizes to one plain-token list literal
yields the list of classified atoms. -/
theorem parse_of_tokenize (s : String) (toks : List String)
    (htk : tokenize s = ("(") :: (toks ++ [(")")]))
    (hplain : ∀ t ∈ toks, t ≠ "(" ∧ t ≠ ")") :
    parse s = .ok (.list (toks.map atom)) := by
  simp only [parse, htk]
  have hL : ((("(") :: (toks ++ [(")")])).length) = toks.length + 2 := by simp
  rw [hL]
  have hstep : read_from_tokens (toks.length + 2 + 1) (("(") :: (toks ++ [(")")]))
      = match readListGo (read_from_tokens (toks.length + 2)) (toks.length + 2)
          (toks ++ [(")")]) with
        | .error e => .error e
        | .ok (l, rest') => .ok (.list l, rest') := rfl
  rw [hstep]
  rw [readListGo_plain (toks.length + 2) (by omega) toks (toks.length + 2) []
    (by omega) hplain]

/-! ## Helper lemmas: decimal rendering of integers

`schemestr` renders an integer via `str(...)`, i.e. `Int`'s `toString`,
which is built on `Nat.toDigitsCore`.  The following lemmas show that
this rendering is a nonempty string of decimal digits (with a leading
minus sign for negative numbers) that `atom` classifies back to the
same integer. -/

theorem digitChar_isDigit {m : Nat} (h : m < 10) :
    (Nat.digitChar m).isDigit = true := by
  interval_cases m <;> rfl

theorem digitChar_toNat {m : Nat} (h : m < 10) :
    (Nat.digitChar m).toNat - 48 = m := by
  interval_cases m <;> rfl

theorem toDigitsCore_spec : ∀ (fuel n : Nat) (acc : List Char), n < fuel →
    ∃ ds : List Char,
      Nat.toDigitsCore 10 fuel n acc = ds ++ acc ∧ ds ≠ [] ∧
        ds.all (·.isDigit) = true ∧
        ∀ a : Nat, ds.foldl (fun x c => x * 10 + (c.toNat - 48)) a
          = a * 10 ^ ds.length + n := by
  intro fuel
  induction fuel with
  | zero => intro n acc h; exact absurd h (Nat.not_lt_zero n)
  | succ fuel ih =>
    intro n acc h
    have hmod : n % 10 < 10 := Nat.mod_lt n (by omega)
    by_cases h0 : n / 10 = 0
    · refine ⟨[Nat.digitChar (n % 10)], ?_, by simp, ?_, ?_⟩
      · simp [Nat.toDigitsCore, h0]
      · simp [digitChar_isDigit hmod]
      · intro a
        have hn : n < 10 := by omega
        simp [List.foldl, digitChar_toNat hmod]
        omega
    · have hn' : n / 10 < fuel := by
        have : n / 10 < n := Nat.div_lt_self (by omega) (by omega)
        omega
      obtain ⟨ds, hds, hne, hdig, hfold⟩ :=
        ih (n / 10) (Nat.digitChar (n % 10) :: acc) hn'
      refine ⟨ds ++ [Nat.digitChar (n % 10)], ?_, by simp, ?_, ?_⟩
      · rw [Nat.toDigitsCore]
        simp only [h0, if_neg h0]
        rw [hds]
        simp
      · simp [List.all_append, hdig, digitChar_isDigit hmod]
      · intro a
        rw [List.foldl_append, hfold a]
        simp only [List.foldl, List.length_append, List.length_singleton,
          digitChar_toNat hmod]
        rw [pow_succ, ← mul_assoc]
        generalize a * 10 ^ ds.length = A
        omega

theorem toDigits_spec (n : Nat) :
    Nat.toDigits 10 n ≠ [] ∧ (Nat.toDigits 10 n).all (·.isDigit) = true ∧
      digitsToNat (Nat.toDigits 10 n) = n := by
  obtain ⟨ds, hds, hne, hdig, hfold⟩ :=
    toDigitsCore_spec (n + 1) n [] (Nat.lt_succ_self n)
  have hds' : Nat.toDigits 10 n = ds := by
    rw [Nat.toDigits, hds, List.append_nil]
  refine ⟨by rw [hds']; exact hne, by rw [hds']; exact hdig, ?_⟩
  rw [hds']
  have := hfold 0
  simpa [digitsToNat] using this

theorem isDigit_ne_plus {c : Char} (h : c.isDigit = true) : c ≠ '+' := by
  intro he; subst he; exact absurd h (by decide)

theorem isDigit_ne_minus {c : Char} (h : c.isDigit = true) : c ≠ '-' := by
  intro he; subst he; exact absurd h (by decide)

theorem isDigit_plainChar {c : Char} (h : c.isDigit = true) :
    plainChar c = true := by
  have h1 : ¬(c = '(') := by intro he; subst he; exact absurd h (by decide)
  have h2 : ¬(c = ')') := by intro he; subst he; exact absurd h (by decide)
  have h3 : c.isWhitespace = false := by
    by_contra hw
    rw [Bool.not_eq_false] at hw
    have hcases : c = ' ' ∨ c = '\t' ∨ c = '\r' ∨ c = '\n' := by
      simpa [Char.isWhitespace, or_assoc] using hw
    rcases hcases with rfl | rfl | rfl | rfl <;> exact absurd h (by decide)
  simp [plainChar, h1, h2, h3]

theorem int_toString_ofNat (m : Nat) :
    (toString (Int.ofNat m)).data = Nat.toDigits 10 m := rfl

theorem int_toString_negSucc (m : Nat) :
    (toString (Int.negSucc m)).data = '-' :: Nat.toDigits 10 (m + 1) := rfl

/-- `int(str(n)) = n`: the decimal rendering of an integer classifies
back to that integer. -/
theorem pyIntOfString?_toString (n : Int) :
    pyIntOfString? (toString n) = some n := by
  cases n with
  | ofNat m =>
    obtain ⟨hne, hdig, hval⟩ := toDigits_spec m
    cases hds : Nat.toDigits 10 m with
    | nil => exact absurd hds hne
    | cons c cs =>
      have hc : c.isDigit = true := by
        rw [hds, List.all_cons] at hdig
        exact (Bool.and_eq_true_iff.mp hdig).1
      rw [hds] at hdig hval
      simp only [pyIntOfString?, int_toString_ofNat, hds]
      rw [if_neg (isDigit_ne_plus hc), if_neg (isDigit_ne_minus hc), if_pos hdig]
      rw [hval]
      rfl
  | negSucc m =>
    obtain ⟨hne, hdig, hval⟩ := toDigits_spec (m + 1)
    have hstep : pyIntOfString? (toString (Int.negSucc m))
        = if Nat.toDigits 10 (m + 1) ≠ [] ∧ (Nat.toDigits 10 (m + 1)).all (·.isDigit)
          then some (-(digitsToNat (Nat.toDigits 10 (m + 1)) : Int)) else none := rfl
    have harg : (-(((m + 1 : Nat)) : Int)) = Int.negSucc m := by
      rw [Int.negSucc_eq]; push_cast; ring
    rw [hstep, if_pos ⟨hne, hdig⟩, hval, harg]

/-- The decimal rendering of an integer is nonempty and free of
parentheses and whitespace. -/
theorem int_toString_plain (n : Int) :
    (toString n).data.all plainChar = true ∧ (toString n).data ≠ [] := by
  cases n with
  | ofNat m =>
    obtain ⟨hne, hdig, _⟩ := toDigits_spec m
    rw [int_toString_ofNat]
    refine ⟨?_, hne⟩
    rw [List.all_eq_true] at hdig ⊢
    exact fun c hc => isDigit_plainChar (hdig c hc)
  | negSucc m =>
    obtain ⟨hne, hdig, _⟩ := toDigits_spec (m + 1)
    rw [int_toString_negSucc]
    refine ⟨?_, by simp⟩
    rw [List.all_cons]
    refine Bool.and_eq_true_iff.mpr ⟨by decide, ?_⟩
    rw [List.all_eq_true] at hdig ⊢
    exact fun c hc => isDigit_plainChar (hdig c hc)

/-! ## Helper lemmas: printer and round trip -/

theorem string_mk_data (s : String) : String.mk s.data = s := rfl

theorem schemestrList_eq_map (l : List Value) :
    schemestrList l = l.map schemestr := by
  induction l with
  | nil => rfl
  | cons v vs ih => simp [schemestrList, ih]

/-- A simple atom renders to a nonempty plain text that `atom`
classifies back to the same value. -/
theorem goodAtom_render (v : Value) (h : goodAtomB v = true) :
    (schemestr v).data.all plainChar = true ∧ (schemestr v).data ≠ [] ∧
      atom (schemestr v) = v := by
  cases v with
  | int n =>
    refine ⟨(int_toString_plain n).1, (int_toString_plain n).2, ?_⟩
    have hint := pyIntOfString?_toString n
    simp [schemestr, atom, hint]
  | sym s =>
    simp only [goodAtomB, Bool.and_eq_true_iff] at h
    obtain ⟨⟨⟨h1, h2⟩, h3⟩, h4⟩ := h
    refine ⟨h2, ?_, ?_⟩
    · simp only [schemestr]
      intro he
      rw [he] at h1
      simp at h1
    · simp only [schemestr, atom, Option.isNone_iff_eq_none.mp h3,
        Option.isNone_iff_eq_none.mp h4]
  | float q => exact absurd h (by simp [goodAtomB])
  | bool b => exact absurd h (by simp [goodAtomB])
  | list l => exact absurd h (by simp [goodAtomB])
  | builtin b => exact absurd h (by simp [goodAtomB])
  | pyNone => exact absurd h (by simp [goodAtomB])

theorem specTokenizeAux_plain (t : List Char) : ∀ (rest acc : List Char),
    t.all plainChar = true →
    specTokenizeAux (t ++ rest) acc = specTokenizeAux rest (t.reverse ++ acc) := by
  induction t with
  | nil => intro rest acc _; simp
  | cons c cs ih =>
    intro rest acc hall
    rw [List.all_cons] at hall
    obtain ⟨hc, hcs⟩ := Bool.and_eq_true_iff.mp hall
    simp only [plainChar, Bool.not_eq_true', Bool.or_eq_false_iff,
      beq_eq_false_iff_ne] at hc
    have h1 : ¬(c = '(' ∨ c = ')') := by
      intro hor; rcases hor with h | h
      · exact hc.1.1 h
      · exact hc.1.2 h
    have h2 : ¬(c.isWhitespace = true) := by rw [hc.2]; simp
    simp only [List.cons_append, specTokenizeAux, if_neg h1, if_neg h2]
    rw [show cs.append rest = cs ++ rest from rfl, ih rest (c :: acc) hcs]
    congr 1
    simp

theorem isEmpty_false_of_ne_nil {α : Type} {l : List α} (h : l ≠ []) :
    l.isEmpty = false := by
  cases l with
  | nil => exact absurd rfl h
  | cons a as => rfl

theorem specTokenizeAux_open (rest : List Char) :
    specTokenizeAux ('(' :: rest) [] = ['('] :: specTokenizeAux rest [] := by
  simp [specTokenizeAux]

theorem specTokenizeAux_space (rest acc : List Char) :
    specTokenizeAux (' ' :: rest) acc
      = (if acc.isEmpty then [] else [acc.reverse]) ++ specTokenizeAux rest [] := by
  have h1 : ¬((' ' : Char) = '(' ∨ (' ' : Char) = ')') := by decide
  have h2 : (' ' : Char).isWhitespace = true := rfl
  simp only [specTokenizeAux, if_neg h1, if_pos h2]

theorem specTokenizeAux_close (rest acc : List Char) :
    specTokenizeAux (')' :: rest) acc
      = (if acc.isEmpty then [] else [acc.reverse]) ++ [')'] :: specTokenizeAux rest [] := by
  simp [specTokenizeAux]

/-- Tokenizing the space-joined renderings of simple atoms, followed by
the closing parenthesis, recovers one token per atom. -/
theorem specTokenizeAux_body (l : List Value) (h : ∀ v ∈ l, goodAtomB v = true) :
    specTokenizeAux ((joinSpace (schemestrList l)).data ++ [')']) []
      = (l.map (fun v => (schemestr v).data)) ++ [[')']] := by
  induction l with
  | nil =>
    simp only [schemestrList, joinSpace]
    rw [List.nil_append, specTokenizeAux_close]
    rfl
  | cons v l ih =>
    obtain ⟨hall, hne, _⟩ := goodAtom_render v (h v (by simp))
    have hemp : ((schemestr v).data.reverse ++ []).isEmpty = false :=
      isEmpty_false_of_ne_nil (by simp [hne])
    cases l with
    | nil =>
      simp only [schemestrList, joinSpace]
      rw [specTokenizeAux_plain (schemestr v).data [')'] [] hall]
      rw [specTokenizeAux_close, hemp]
      simp [specTokenizeAux]
    | cons w l' =>
      have ih' := ih (fun x hx => h x (List.mem_cons_of_mem v hx))
      simp only [schemestrList, joinSpace] at ih' ⊢
      rw [show (schemestr v ++ " " ++ joinSpace (schemestr w :: schemestrList l')).data
          = (schemestr v).data ++ (' ' ::
              (joinSpace (schemestr w :: schemestrList l')).data) by
        simp [String.data_append]]
      rw [List.append_assoc ((schemestr v).data)]
      rw [specTokenizeAux_plain (schemestr v).data _ [] hall]
      rw [show ((' ' :: (joinSpace (schemestr w :: schemestrList l')).data) ++ [')'])
          = ' ' :: ((joinSpace (schemestr w :: schemestrList l')).data ++ [')'])
        from rfl]
      rw [specTokenizeAux_space, hemp, ih']
      simp

/-- Rendering a flat list of simple atoms and tokenizing the text
yields the open parenthesis, one token per atom, and the close
parenthesis. -/
theorem tokenize_render (l : List Value) (h : ∀ v ∈ l, goodAtomB v = true) :
    tokenize (schemestr (.list l)) = ("(") :: (l.map schemestr ++ [(")")]) := by
  rw [tokenize_eq_specTokenize]
  have hdata : (schemestr (.list l)).data
      = '(' :: ((joinSpace (schemestrList l)).data ++ [')']) := by
    simp only [schemestr]
    rw [String.data_append, String.data_append]
    rfl
  simp only [specTokenize, hdata]
  rw [specTokenizeAux_open, specTokenizeAux_body l h]
  simp only [List.map_cons, List.map_append, List.map_map]
  have hmaps : List.map (String.mk ∘ fun v => (schemestr v).data) l
      = List.map schemestr l :=
    List.map_congr_left (fun v _ => string_mk_data (schemestr v))
  rw [hmaps]
  rfl

/-- Parsing the rendering of a flat list of simple atoms yields an
equal tree. -/
theorem parse_render (l : List Value) (h : ∀ v ∈ l, goodAtomB v = true) :
    parse (schemestr (.list l)) = .ok (.list l) := by
  have htk := tokenize_render l h
  have hplain : ∀ t ∈ l.map schemestr, t ≠ "(" ∧ t ≠ ")" := by
    intro t ht
    rw [List.mem_map] at ht
    obtain ⟨v, hv, rfl⟩ := ht
    obtain ⟨hall, _, _⟩ := goodAtom_render v (h v hv)
    constructor
    · intro he
      rw [he] at hall
      exact absurd hall (by decide)
    · intro he
      rw [he] at hall
      exact absurd hall (by decide)
  rw [parse_of_tokenize (schemestr (.list l)) (l.map schemestr) htk hplain]
  congr 1
  congr 1
  rw [List.map_map]
  have hid : ∀ v ∈ l, (atom ∘ schemestr) v = v := fun v hv =>
    (goodAtom_render v (h v hv)).2.2
  rw [List.map_congr_left hid]
  simp

/-! ## Helper lemmas: environment -/

/-- `env[k] = v` followed by a lookup of `k` finds `v`, whether or not
`k` was previously bound. -/
theorem envGet_envSet (env : Env) (k : String) (v : Value) :
    envGet (envSet env k v) k = some v := by
  induction env with
  | nil => simp [envSet, envGet]
  | cons p rest ih =>
    obtain ⟨k', w⟩ := p
    by_cases h : k' = k
    · simp [envSet, envGet, h]
    · simp [envSet, envGet, h, ih]

/-! ## The claims -/

/-- C1 counterexample: parsing the unterminated input `"(+ 1 2"` does
not fail with the EOF `SyntaxError`; the loop condition `tokens[0]`
raises an uncaught `IndexError` on the exhausted token list. -/
theorem C1_counterexample :
    parse ("(+ 1 2") = .error .indexError
      ∧ PyErr.indexError ≠ PyErr.unexpectedEOF :=
  ⟨rfl, by decide⟩

/-- C1 (amended): parsing fails with the EOF `SyntaxError` exactly when
the input's token sequence is empty; an input with an unterminated open
parenthesis such as `"(+ 1 2"` instead fails with an uncaught
`IndexError` raised by the `tokens[0]` check of the element loop, and
`")"` alone fails with the unexpected-close `SyntaxError`. -/
theorem C1_eof_errors :
    (∀ s : String, parse s = .error .unexpectedEOF ↔ tokenize s = [])
      ∧ parse ("") = .error .unexpectedEOF
      ∧ parse ("(+ 1 2") = .error .indexError
      ∧ parse (")") = .error .unexpectedClose :=
  ⟨parse_eof_iff, rfl, rfl, rfl⟩

/-- C1 witness: the amended characterization applied to the empty
input. -/
theorem C1_eof_errors_witness :
    tokenize ("") = [] ∧ parse ("") = .error .unexpectedEOF :=
  ⟨rfl, (C1_eof_errors.1 ("")).mpr rfl⟩

/-- C2: a 4-element list headed by the symbol `if` evaluates the test
and then only the selected branch — the unselected branch never reaches
`eval`, so an error-producing unselected branch raises no error — and
the two spec examples evaluate to `Number(1)` and `Number(2)`. -/
theorem C2_if_lazy_selection :
    (∀ (test conseq alt : Value) (env : Env),
      eval (.list [.sym ("if"), test, conseq, alt]) env
        = match eval test env with
          | (env₁, .error e) => (env₁, .error e)
          | (env₁, .ok tv) =>
            if truthy tv then eval conseq env₁ else eval alt env₁)
      ∧ (run ("(if (> 3 2) 1 2)")).2 = .ok (.int 1)
      ∧ (run ("(if (> 2 3) 1 2)")).2 = .ok (.int 2)
      ∧ (run ("(if (> 3 2) 1 undefined_name)")).2 = .ok (.int 1)
      ∧ (run ("(if (> 2 3) undefined_name 2)")).2 = .ok (.int 2) :=
  ⟨fun _ _ _ _ => rfl, rfl, rfl, rfl, rfl⟩

/-- C3: `(define name valueExpr)` with exactly 3 elements first
evaluates the value expression, then binds the result under `name`
(overwriting any prior binding) and returns the Unit value `None`;
a subsequent lookup of `Symbol(name)` yields the bound value, and the
spec's `(define x 10)` example behaves accordingly. -/
theorem C3_define_binds :
    (∀ (name : String) (valueExpr : Value) (env : Env),
      eval (.list [.sym ("define"), .sym name, valueExpr]) env
        = match eval valueExpr env with
          | (env₁, .error e) => (env₁, .error e)
          | (env₁, .ok v) => (envSet env₁ name v, .ok .pyNone))
      ∧ (∀ (env : Env) (name : String) (v : Value),
          envGet (envSet env name v) name = some v)
      ∧ (∀ (env : Env) (name : String) (v : Value),
          eval (.sym name) (envSet env name v)
            = (envSet env name v, .ok v))
      ∧ run ("(define x 10)") = (envSet global_env ("x") (.int 10), .ok .pyNone)
      ∧ eval (.sym ("x")) (envSet global_env ("x") (.int 10))
          = (envSet global_env ("x") (.int 10), .ok (.int 10)) := by
  refine ⟨fun _ _ _ => rfl, envGet_envSet, ?_, rfl, rfl⟩
  intro env name v
  rw [show eval (.sym name) (envSet env name v)
      = (envSet env name v,
         match envGet (envSet env name v) name with
         | some w => .ok w
         | none => .error (.keyError name)) from rfl]
  rw [envGet_envSet]

/-- C4 counterexample: evaluating `(define x (begin (define y 1) z))`
fails (`z` is unbound), yet the environment is not left unchanged: the
nested `define` executed inside the failing value expression has
already bound `y`. -/
theorem C4_counterexample :
    (run ("(define x (begin (define y 1) z))")).2 = .error (.keyError ("z"))
      ∧ envGet (run ("(define x (begin (define y 1) z))")).1 ("y") = some (.int 1)
      ∧ envGet global_env ("y") = none
      ∧ (run ("(define x (begin (define y 1) z))")).1 ≠ global_env := by
  refine ⟨rfl, rfl, rfl, ?_⟩
  intro h
  have h1 : envGet (run ("(define x (begin (define y 1) z))")).1 ("y")
      = some (.int 1) := rfl
  have h2 : envGet global_env ("y") = none := rfl
  rw [h] at h1
  exact Option.noConfusion (h2.symm.trans h1)

/-- C4 (amended): when evaluation of the value expression of
`(define name valueExpr)` fails, the `define` form itself performs no
binding — the resulting environment and error are exactly those
produced by the failed evaluation of the value expression.  (The
environment may nevertheless differ from the initial one, since nested
`define` forms completed inside the value expression before the failure
have already mutated it.) -/
theorem C4_define_no_binding_on_failure :
    ∀ (name : String) (valueExpr : Value) (env env' : Env) (e : PyErr),
      eval valueExpr env = (env', .error e) →
      eval (.list [.sym ("define"), .sym name, valueExpr]) env
        = (env', .error e) := by
  intro name valueExpr env env' e h
  rw [show eval (.list [.sym ("define"), .sym name, valueExpr]) env
      = (match eval valueExpr env with
         | (env₁, .error er) => (env₁, .error er)
         | (env₁, .ok v) => (envSet env₁ name v, .ok .pyNone)) from rfl]
  rw [h]

/-- C4 witness: the amended statement applied to a `define` whose value
expression is the unbound symbol `z`. -/
theorem C4_define_no_binding_on_failure_witness :
    eval (.sym ("z")) global_env = (global_env, .error (.keyError ("z")))
      ∧ eval (.list [.sym ("define"), .sym ("w"), .sym ("z")]) global_env
          = (global_env, .error (.keyError ("z"))) :=
  ⟨rfl, C4_define_no_binding_on_failure ("w") (.sym ("z")) global_env global_env
    (.keyError ("z")) rfl⟩

/-- C5: the standard environment binds `append` and `+` to the same
function object (`operator.add`), so applying the value bound to
`append` to any argument list gives exactly the same result — or the
same failure — as applying the value bound to `+`. -/
theorem C5_append_is_add :
    envGet standard_environment ("append") = envGet standard_environment ("+")
      ∧ envGet standard_environment ("append") = some (.builtin .add)
      ∧ ∀ args : List Value,
          (match envGet standard_environment ("append") with
           | some p => callValue p args
           | none => .error .typeError)
            = (match envGet standard_environment ("+") with
               | some p => callValue p args
               | none => .error .typeError) :=
  ⟨rfl, rfl, fun _ => rfl⟩

/-- C6: the tokenizer computes, on every input string, exactly the
token sequence described by the spec (parentheses isolated, all other
content split on whitespace); it is total by construction, the empty
input yields no tokens, and `"(+ 1 2)"` yields the five expected
tokens. -/
theorem C6_tokenizer :
    (∀ s : String, tokenize s = specTokenize s)
      ∧ tokenize ("") = []
      ∧ tokenize ("(+ 1 2)") = [("("), ("+"), ("1"), ("2"), (")")] :=
  ⟨tokenize_eq_specTokenize, rfl, rfl⟩

/-- C7: the atom classifier is total and tries the integer reading
first, the float reading second, and otherwise keeps the raw text as a
symbol; sample classifications behave accordingly. -/
theorem C7_atom_classifier :
    (∀ (t : String) (n : Int), pyIntOfString? t = some n → atom t = .int n)
      ∧ (∀ (t : String) (q : Rat), pyIntOfString? t = none →
          pyFloatOfString? t = some q → atom t = .float q)
      ∧ (∀ t : String, pyIntOfString? t = none → pyFloatOfString? t = none →
          atom t = .sym t)
      ∧ atom ("12") = .int 12
      ∧ atom ("-4") = .int (-4)
      ∧ atom ("1.5") = .float ((3 : Rat) / 2)
      ∧ atom ("x") = .sym ("x") := by
  refine ⟨?_, ?_, ?_, rfl, rfl, ?_, rfl⟩
  · intro t n h; simp [atom, h]
  · intro t q h1 h2; simp [atom, h1, h2]
  · intro t h1 h2; simp [atom, h1, h2]
  · have h1 : pyIntOfString? ("1.5") = none := rfl
    have h2 : pyFloatOfString? ("1.5") = some ((3 : Rat) / 2) := by
      have hstep : pyFloatOfString? ("1.5") = some (mantissaVal ['1'] ['5']) := rfl
      have e1 : digitsToNat ['1'] = 1 := rfl
      have e5 : digitsToNat ['5'] = 5 := rfl
      rw [hstep]
      simp only [mantissaVal, e1, e5]
      norm_num
    simp [atom, h1, h2]

/-- C7 witness: the classifier cases applied to the concrete tokens
`"12"` and `"x"`. -/
theorem C7_atom_classifier_witness :
    (pyIntOfString? ("12") = some 12 ∧ atom ("12") = .int 12)
      ∧ (pyIntOfString? ("x") = none ∧ pyFloatOfString? ("x") = none
          ∧ atom ("x") = .sym ("x")) :=
  ⟨⟨rfl, C7_atom_classifier.1 ("12") 12 rfl⟩,
   ⟨rfl, rfl, C7_atom_classifier.2.2.1 ("x") rfl rfl⟩⟩

/-- C8: a list renders as `(` + the space-joined renderings of its
elements + `)`; the example list renders as `"(a 1)"`; and for every
flat list of simple atoms (integers, or symbols whose text survives
tokenization unchanged), parsing the rendered text yields an equal
tree, so render ∘ parse ∘ render agrees with render. -/
theorem C8_render_roundtrip :
    (∀ l : List Value,
      schemestr (.list l) = ("(") ++ joinSpace (l.map schemestr) ++ (")"))
      ∧ schemestr (.list [.sym ("a"), .int 1]) = ("(a 1)")
      ∧ (∀ l : List Value, (∀ v ∈ l, goodAtomB v = true) →
          parse (schemestr (.list l)) = .ok (.list l)
            ∧ Except.map schemestr (parse (schemestr (.list l)))
                = .ok (schemestr (.list l))) := by
  refine ⟨?_, rfl, ?_⟩
  · intro l
    rw [← schemestrList_eq_map]
    rfl
  · intro l h
    refine ⟨parse_render l h, ?_⟩
    rw [parse_render l h]
    rfl

/-- C8 witness: the round trip applied to the concrete list
`(a 1)`. -/
theorem C8_render_roundtrip_witness :
    (∀ v ∈ [Value.sym ("a"), Value.int 1], goodAtomB v = true)
      ∧ parse (schemestr (.list [.sym ("a"), .int 1]))
          = .ok (.list [.sym ("a"), .int 1]) :=
  ⟨by decide, (C8_render_roundtrip.2.2 [.sym ("a"), .int 1] (by decide)).1⟩

/-- C9: the evaluator recognizes the `if` and `define` special forms by
the raw first element alone, for every environment — no environment
lookup is involved — so `(define if 5)` and `(define define 5)` add
bindings, yet lists headed by `if` or `define` are still evaluated by
the special-form rules, never as procedure applications of the newly
bound values. -/
theorem C9_keywords_not_shadowed :
    (∀ (env : Env) (rest : List Value),
      eval (.list (.sym ("if") :: rest)) env
        = match rest with
          | [test, conseq, alt] =>
            (match eval test env with
             | (env₁, .error e) => (env₁, .error e)
             | (env₁, .ok tv) =>
               if truthy tv then eval conseq env₁ else eval alt env₁)
          | _ => (env, .error .valueError))
      ∧ (∀ (env : Env) (rest : List Value),
          eval (.list (.sym ("define") :: rest)) env
            = match rest with
              | [name, valueExpr] =>
                (match eval valueExpr env with
                 | (env₁, .error e) => (env₁, .error e)
                 | (env₁, .ok v) =>
                   match name with
                   | .sym s => (envSet env₁ s v, .ok .pyNone)
                   | _ => (env₁, .error (.unmodelled ("define-key"))))
              | _ => (env, .error .valueError))
      ∧ run ("(define if 5)") = (envSet global_env ("if") (.int 5), .ok .pyNone)
      ∧ eval (.list [.sym ("if"), .int 1, .int 7, .sym ("nope")])
          (envSet global_env ("if") (.int 5))
          = (envSet global_env ("if") (.int 5), .ok (.int 7))
      ∧ run ("(define define 5)")
          = (envSet global_env ("define") (.int 5), .ok .pyNone)
      ∧ eval (.list [.sym ("define"), .sym ("w"), .int 1])
          (envSet global_env ("define") (.int 5))
          = (envSet (envSet global_env ("define") (.int 5)) ("w") (.int 1),
             .ok .pyNone) := by
  refine ⟨?_, ?_, rfl, rfl, rfl, rfl⟩
  · intro env rest
    rcases rest with _ | ⟨a, _ | ⟨b, _ | ⟨c, _ | ⟨d, r⟩⟩⟩⟩ <;> rfl
  · intro env rest
    rcases rest with _ | ⟨a, _ | ⟨b, _ | ⟨c, r⟩⟩⟩ <;> rfl

/-- C10: the comparison builtins return Python booleans (a value kind
outside the spec's three-case `Expression` variant), as do the
predicate builtins; booleans satisfy `number?` (Python `bool` is an
`int` subclass) and are self-evaluating in the evaluator's `Number`
branch, which is what makes `if` tests over comparison results work. -/
theorem C10_booleans :
    (∀ (a b : Value) (x y : Rat), numVal? a = some x → numVal? b = some y →
      applyBuiltin .gt [a, b] = .ok (.bool (decide (x > y)))
        ∧ applyBuiltin .lt [a, b] = .ok (.bool (decide (x < y)))
        ∧ applyBuiltin .ge [a, b] = .ok (.bool (decide (x ≥ y)))
        ∧ applyBuiltin .le [a, b] = .ok (.bool (decide (x ≤ y))))
      ∧ (∀ a b : Value, applyBuiltin .eqOp [a, b] = .ok (.bool (pyEq a b)))
      ∧ (∀ v : Value,
          applyBuiltin .isNumberFn [v] = .ok (.bool (isNumberValue v))
            ∧ applyBuiltin .isSymbolFn [v] = .ok (.bool (isSymbolValue v))
            ∧ applyBuiltin .isProcedureFn [v] = .ok (.bool (isCallable v))
            ∧ applyBuiltin .isNullFn [v] = .ok (.bool (pyEq v (.list []))))
      ∧ (∀ b : Bool, isNumberValue (.bool b) = true)
      ∧ (∀ (b : Bool) (env : Env), eval (.bool b) env = (env, .ok (.bool b)))
      ∧ (run ("(number? (> 1 2))")).2 = .ok (.bool true)
      ∧ (run ("(if (> 3 2) 1 2)")).2 = .ok (.int 1) := by
  refine ⟨?_, fun _ _ => rfl, fun _ => ⟨rfl, rfl, rfl, rfl⟩,
    fun _ => rfl, fun _ _ => rfl, rfl, rfl⟩
  intro a b x y hx hy
  refine ⟨?_, ?_, ?_, ?_⟩ <;> simp [applyBuiltin, pyCompare, hx, hy]

/-- C10 witness: the comparison case applied to `(> 3 2)`. -/
theorem C10_booleans_witness :
    numVal? (.int 3) = some 3 ∧ numVal? (.int 2) = some 2
      ∧ applyBuiltin .gt [.int 3, .int 2]
          = .ok (.bool (decide ((3 : Rat) > (2 : Rat)))) :=
  ⟨rfl, rfl, (C10_booleans.1 (.int 3) (.int 2) 3 2 rfl rfl).1⟩

end PyLisp
